import Mathlib

/-!
Shallow embedding of `src/gpu_tdp_balancer/balancer.py` (class `GpuTdpBalancer`).

All power quantities are in milliwatts (mW), exactly as the Python code stores
them internally (`__init__` multiplies the configured watt values by 1000, and
NVML reports per-device maximum limits in mW).  Devices are indexed `0..n-1`;
the per-device maximum limits `gpu_max_tdp_limits_mw` are a list `hwMax` whose
`i`-th entry is the maximum of device `i`, utilization readings are a list `utils`,
and the `last_tdp_limits_mw` dict is a function `Nat → Option Nat` (`none`
meaning the key is absent).  The Python `sorted(..., reverse=True)` (a stable
sort, with unique output) is modelled with a stable descending insertion
sort, the Python `//` on
the nonnegative quantities involved is `Nat` division, and the quantities the
code clamps at zero (`excess_mw`, `remaining_budget_mw`) are `Nat` with
truncated subtraction, which agrees with the explicit
`if ... > 0` / clamp-to-zero handling.
-/

namespace GpuTdpBalancer

/-- Stable descending insertion of an `(index, value)` pair into a list that
is already sorted by value descending: the new element goes before the first
element whose value does not exceed it, hence before later elements of equal
value (the tie behaviour of a stable sort). -/
def insertDesc (a : Nat × Nat) : List (Nat × Nat) → List (Nat × Nat)
  | [] => [a]
  | b :: t => if b.2 ≤ a.2 then a :: b :: t else b :: insertDesc a t

/-- Stable descending sort of `(index, value)` pairs by value, modelling
the Python `sorted(d, key=d.get, reverse=True)` / `list.sort(key=..., reverse=True)`
(both stable, and the output of a stable sort is unique). -/
def sortByValDesc : List (Nat × Nat) → List (Nat × Nat)
  | [] => []
  | a :: t => insertDesc a (sortByValDesc t)

/-- One iteration of the excess-reduction loop shared by `_initial_tdp_setup`
(balancer.py lines 131-137) and the passive branch of `run` (lines 250-255):
`reduction = min(excess_mw, limits[i] - min_tdp); if reduction > 0: ...`,
with the loop `if excess_mw <= 0: break` modelled as a no-op step. -/
def reduceStep (minTdp : Nat) (st : List Nat × Nat) (i : Nat) : List Nat × Nat :=
  if st.2 = 0 then st
  else
    let cur := st.1.getD i 0
    let reduction := min st.2 (cur - minTdp)
    if 0 < reduction then (st.1.set i (cur - reduction), st.2 - reduction) else st

/-- The excess-reduction loop: fold `reduceStep` over the index order. -/
def reduceExcess (minTdp : Nat) (lims : List Nat) (excess : Nat)
    (order : List Nat) : List Nat × Nat :=
  order.foldl (reduceStep minTdp) (lims, excess)

/-- The passive ("all GPUs below passive threshold") allocation of
`GpuTdpBalancer.run`, balancer.py lines 229-257: an even split of the total
budget, clamped per device by `max` with the configured minimum then `min`
with the per-device maximum (accumulating the running total as the loop
does), followed by the excess-reduction loop over indices sorted by limit
descending. -/
def passiveAlloc (budget minTdp : Nat) (hwMax : List Nat) : List Nat :=
  let n := hwMax.length
  let base := budget / n
  let tl := hwMax.foldl
    (fun (st : List Nat × Nat) m =>
      let limit := min (max minTdp base) m
      (st.1 ++ [limit], st.2 + limit)) ([], 0)
  let excess := tl.2 - budget
  if 0 < excess then
    (reduceExcess minTdp tl.1 excess
      ((sortByValDesc ((List.range n).zip tl.1)).map Prod.fst)).1
  else tl.1

/-- The allocation computed once at startup by
`GpuTdpBalancer._initial_tdp_setup`, balancer.py lines 108-146 (the limits it
passes to `_set_tdp_limits`): even split clamped into `[min_tdp, hwMax i]`
per device, then the same excess-reduction loop, reducing from the
highest-valued devices first. -/
def initialAlloc (budget minTdp : Nat) (hwMax : List Nat) : List Nat :=
  let n := hwMax.length
  let perGpu := budget / n
  let newLimits := hwMax.map (fun m => min (max minTdp perGpu) m)
  let excess := newLimits.sum - budget
  if 0 < excess then
    (reduceExcess minTdp newLimits excess
      ((sortByValDesc ((List.range n).zip newLimits)).map Prod.fst)).1
  else newLimits

/-- The per-device floor assigned at the start of the active branch of `run`,
balancer.py line 267: `min(self.gpu_min_tdp_per_gpu_mw, self.gpu_max_tdp_limits_mw[i])`. -/
def activeFloor (minTdp : Nat) (hwMax : List Nat) : List Nat :=
  hwMax.map (fun m => min minTdp m)

/-- One iteration of the surplus-granting loop of the active branch of `run`,
balancer.py lines 280-294: give the device `min(remaining, hwMax[i] - current)`
when positive, with the `if remaining_budget_mw <= 0: break` modelled as a
no-op step.  The loop runs over active devices sorted by utilization
descending; each element is an `(index, utilization)` pair. -/
def grantStep (hwMax : List Nat) (st : List Nat × Nat) (p : Nat × Nat) :
    List Nat × Nat :=
  if st.2 = 0 then st
  else
    let cur := st.1.getD p.1 0
    let inc := min st.2 (hwMax.getD p.1 0 - cur)
    if 0 < inc then (st.1.set p.1 (cur + inc), st.2 - inc) else st

/-- The active-branch allocation of `run`, balancer.py lines 259-294, given the
already-sorted list of `(index, utilization)` pairs of active devices: floors
for everyone, then grant the remaining budget greedily down the sorted list.
`remaining_budget_mw` is clamped at 0 when the floors alone exceed the budget
(lines 272-275), which truncated subtraction does directly. -/
def activeAlloc (budget minTdp : Nat) (hwMax : List Nat)
    (activeSorted : List (Nat × Nat)) : List Nat :=
  let base := activeFloor minTdp hwMax
  let remaining := budget - base.sum
  (activeSorted.foldl (grantStep hwMax) (base, remaining)).1

/-- The active-device list built in `run`, balancer.py lines 218-222: the
`(index, utilization)` pairs with `utilization >= gpu_active_level`. -/
def classifyActive (activeLevel : Nat) (utils : List Nat) : List (Nat × Nat) :=
  ((List.range utils.length).zip utils).filter (fun p => activeLevel ≤ p.2)

/-- The `all_passive` flag computed in `run`, balancer.py lines 219-225: it
stays `true` only if every device falls into neither the
`util >= gpu_active_level` branch nor the `util >= gpu_passive_level` branch. -/
def allPassive (activeLevel passiveLevel : Nat) (utils : List Nat) : Bool :=
  utils.all (fun u => decide (u < activeLevel) && decide (u < passiveLevel))

/-- The allocation of one cycle (`new_limits_mw`) as computed by `run`,
balancer.py lines 214-296, from the utilization readings: the passive even
split when `all_passive`, else the active branch over the active devices
sorted by utilization descending (line 262). -/
def cycleAlloc (activeLevel passiveLevel budget minTdp : Nat)
    (hwMax utils : List Nat) : List Nat :=
  if allPassive activeLevel passiveLevel utils then
    passiveAlloc budget minTdp hwMax
  else
    activeAlloc budget minTdp hwMax (sortByValDesc (classifyActive activeLevel utils))

/-- The clamp applied by `GpuTdpBalancer._set_tdp_limits` to each target,
balancer.py lines 163-166: `min(max(min_tdp, target), hwMax_i)`. -/
def clampLimit (minTdp hwMaxI tgt : Nat) : Nat :=
  min (max minTdp tgt) hwMaxI

/-- Handling of one device in `_set_tdp_limits`, balancer.py lines 158-187.
`targets` is the `target_limits_mw` dict as an association list (`lookup`
failing models `i not in target_limits_mw`); the state is the
`last_tdp_limits_mw` dict together with the list of `(device, value)` write
calls issued to `nvmlDeviceSetPowerManagementLimit` so far.  A write is
issued when the clamped value differs from the recorded last value (or no
value is recorded); `fails i = true` models the call raising
`NVML_ERROR_NOT_SUPPORTED`, which is logged and leaves `last_tdp_limits_mw`
unchanged. -/
def setTdpStep (minTdp : Nat) (hwMax : List Nat) (fails : Nat → Bool)
    (targets : List (Nat × Nat))
    (st : (Nat → Option Nat) × List (Nat × Nat)) (i : Nat) :
    (Nat → Option Nat) × List (Nat × Nat) :=
  match targets.lookup i with
  | none => st
  | some tgt =>
    let w := clampLimit minTdp (hwMax.getD i 0) tgt
    if st.1 i = some w then st
    else if fails i then (st.1, st.2 ++ [(i, w)])
    else (fun j => if j = i then some w else st.1 j, st.2 ++ [(i, w)])

/-- `GpuTdpBalancer._set_tdp_limits`, balancer.py lines 150-190: iterate the
devices in index order, returning the updated `last_tdp_limits_mw` dict and
the list of write calls issued to the device port this invocation. -/
def setTdpLimits (minTdp : Nat) (hwMax : List Nat) (fails : Nat → Bool)
    (last : Nat → Option Nat) (targets : List (Nat × Nat)) :
    (Nat → Option Nat) × List (Nat × Nat) :=
  (List.range hwMax.length).foldl (setTdpStep minTdp hwMax fails targets) (last, [])

/-- `GpuTdpBalancer.get_gpu_status`, balancer.py lines 193-208: per device,
the `(index, utilization)` pair; a failed read (`none`) is caught and
reported as utilization 0 (line 207). -/
def getGpuStatus (reads : List (Option Nat)) : List (Nat × Nat) :=
  (List.range reads.length).zip (reads.map (fun r => r.getD 0))

/-- One full iteration of the `run` loop, balancer.py lines 214-298:
read statuses, compute the allocation of the cycle from the utilizations, and
apply it through `_set_tdp_limits`.  Returns the updated
`last_tdp_limits_mw` dict and the writes issued this cycle. -/
def runCycle (activeLevel passiveLevel budget minTdp : Nat) (hwMax : List Nat)
    (reads : List (Option Nat)) (fails : Nat → Bool)
    (last : Nat → Option Nat) : (Nat → Option Nat) × List (Nat × Nat) :=
  let utils := (getGpuStatus reads).map Prod.snd
  let alloc := cycleAlloc activeLevel passiveLevel budget minTdp hwMax utils
  setTdpLimits minTdp hwMax fails last ((List.range hwMax.length).zip alloc)


/-! ### Helper lemmas -/

theorem insertDesc_perm (a : Nat × Nat) (l : List (Nat × Nat)) :
    List.Perm (insertDesc a l) (a :: l) := by
  induction l with
  | nil => exact List.Perm.refl _
  | cons b t ih =>
    unfold insertDesc
    by_cases h : b.2 ≤ a.2
    · rw [if_pos h]
    · rw [if_neg h]
      exact (ih.cons b).trans (List.Perm.swap a b t)

theorem sortByValDesc_perm (l : List (Nat × Nat)) :
    List.Perm (sortByValDesc l) l := by
  induction l with
  | nil => exact List.Perm.refl _
  | cons a t ih => exact (insertDesc_perm a (sortByValDesc t)).trans (ih.cons a)

theorem insertDesc_pairwise (a : Nat × Nat) (l : List (Nat × Nat))
    (h : l.Pairwise (fun x y => y.2 ≤ x.2)) :
    (insertDesc a l).Pairwise (fun x y => y.2 ≤ x.2) := by
  induction l with
  | nil => simp [insertDesc]
  | cons b t ih =>
    rcases List.pairwise_cons.1 h with ⟨hb, ht⟩
    unfold insertDesc
    by_cases hba : b.2 ≤ a.2
    · rw [if_pos hba]
      refine List.Pairwise.cons ?_ h
      intro c hc
      rcases List.mem_cons.1 hc with hc | hc
      · exact hc ▸ hba
      · exact Nat.le_trans (hb c hc) hba
    · rw [if_neg hba]
      refine List.Pairwise.cons ?_ (ih ht)
      intro c hc
      rcases List.mem_cons.1 ((insertDesc_perm a t).mem_iff.1 hc) with hc | hc
      · exact hc ▸ Nat.le_of_lt (Nat.lt_of_not_le hba)
      · exact hb c hc

theorem sortByValDesc_pairwise (l : List (Nat × Nat)) :
    (sortByValDesc l).Pairwise (fun x y => y.2 ≤ x.2) := by
  induction l with
  | nil => simp [sortByValDesc]
  | cons a t ih => exact insertDesc_pairwise a (sortByValDesc t) ih

theorem foldl_append_sum (f : Nat → Nat) :
    ∀ (l : List Nat) (acc : List Nat) (s : Nat),
      l.foldl (fun (st : List Nat × Nat) m => (st.1 ++ [f m], st.2 + f m)) (acc, s) =
        (acc ++ l.map f, s + (l.map f).sum)
  | [], acc, s => by simp
  | a :: t, acc, s => by
    simp only [List.foldl_cons, List.map_cons, List.sum_cons]
    rw [foldl_append_sum f t (acc ++ [f a]) (s + f a)]
    simp [List.append_assoc]
    omega

/-! ### Claim theorems -/

/-- Claim C9: the startup allocation of `_initial_tdp_setup` coincides, as a
function of the budget, the configured minimum and the per-device maxima,
with the passive-cycle allocation of `run`. -/
theorem c9_initial_matches_passive (budget minTdp : Nat) (hwMax : List Nat) :
    initialAlloc budget minTdp hwMax = passiveAlloc budget minTdp hwMax := by
  simp only [initialAlloc, passiveAlloc, foldl_append_sum, List.nil_append, Nat.zero_add]

/-- Claim C3 (amended): a TRANSITION cycle (no device at or above the active
level, at least one device at or above the passive level) takes the active
branch with an empty active list, so every device gets the floor
`min(configMin, hwMax i)` rather than the passive even split. -/
theorem c3_transition_floor (al pl budget minTdp : Nat)
    (hwMax utils : List Nat)
    (hnoact : ∀ u ∈ utils, u < al) (htrans : ∃ u ∈ utils, pl ≤ u) :
    cycleAlloc al pl budget minTdp hwMax utils = activeFloor minTdp hwMax := by
  obtain ⟨u, hu, hpl⟩ := htrans
  have hap : allPassive al pl utils = false := by
    unfold allPassive
    rw [List.all_eq_false]
    exact ⟨u, hu, by simp [Nat.not_lt.mpr hpl]⟩
  have hca : classifyActive al utils = [] := by
    unfold classifyActive
    rw [List.filter_eq_nil_iff]
    intro p hp
    have hmem := (List.of_mem_zip hp).2
    simp only [decide_eq_true_eq]
    exact Nat.not_le.mpr (hnoact _ hmem)
  unfold cycleAlloc
  rw [hap, hca]
  simp [sortByValDesc, activeAlloc]

/-- Witness for C3: the concrete TRANSITION scenario with thresholds 20/10 and
both utilizations 15 yields the floors, 50 W each. -/
theorem c3_transition_floor_witness :
    cycleAlloc 20 10 400000 50000 [300000, 500000] [15, 15] =
      activeFloor 50000 [300000, 500000] :=
  c3_transition_floor 20 10 400000 50000 [300000, 500000] [15, 15]
    (by decide) (by decide)

/-- Counterexample for C3 as stated: with thresholds 20/10 and utilizations
15 and 15 the cycle is a TRANSITION cycle (no utilization reaches 20, both
reach 10), yet its allocation differs from the capacity-weighted (passive)
allocation for the same devices. -/
theorem c3_counterexample :
    ((15 : Nat) < 20 ∧ (10 : Nat) ≤ 15) ∧
      cycleAlloc 20 10 400000 50000 [300000, 500000] [15, 15] ≠
        passiveAlloc 400000 50000 [300000, 500000] := by decide

/-- Claim C1 (amended): in the scenario with maxima 300 W and 500 W, budget
400 W, minimum 50 W and both devices idle, the passive strategy splits the
budget evenly: 200 W to each device (mW values throughout). -/
theorem c1_even_split :
    cycleAlloc 20 10 400000 50000 [300000, 500000] [0, 0] =
      [200000, 200000] := by decide

/-- Counterexample for C1 as stated: the allocation in that scenario is not
the 3:5 proportional split 150 W / 250 W. -/
theorem c1_counterexample :
    cycleAlloc 20 10 400000 50000 [300000, 500000] [0, 0] ≠
      [150000, 250000] := by decide

/-- Claim C6 (amended): with both devices active (utilizations 30 and 25,
active level 20), equal maxima of 500 W, budget 800 W and minimum 100 W, the
surplus is granted greedily in utilization order: the higher-utilization
device is raised to its 500 W maximum and the other receives the remaining
300 W. -/
theorem c6_greedy_grant :
    cycleAlloc 20 10 800000 100000 [500000, 500000] [30, 25] =
      [500000, 300000] := by decide

/-- Counterexample for C6 as stated: in that all-active, equal-maxima
scenario the two targets differ by 200 W, far more than the claimed 1 W
rounding tolerance. -/
theorem c6_counterexample :
    ((20 : Nat) ≤ 30 ∧ (20 : Nat) ≤ 25) ∧
      ¬ ((cycleAlloc 20 10 800000 100000 [500000, 500000] [30, 25]).getD 0 0 -
          (cycleAlloc 20 10 800000 100000 [500000, 500000] [30, 25]).getD 1 0 ≤ 1000) := by
  decide

/-- Claim C5 (amended): a failed utilization read is reported by
`get_gpu_status` as utilization 0 and the cycle proceeds: the cycle behaves
exactly as if every failed read had returned 0, still computing an
allocation and issuing writes. -/
theorem c5_failed_read_zero (al pl budget minTdp : Nat) (hwMax : List Nat)
    (reads : List (Option Nat)) (fails : Nat → Bool) (last : Nat → Option Nat) :
    runCycle al pl budget minTdp hwMax reads fails last =
      runCycle al pl budget minTdp hwMax
        (reads.map (fun r => some (r.getD 0))) fails last := by
  unfold runCycle getGpuStatus
  simp [List.map_map, Function.comp_def]

/-- Counterexample for C5 as stated: a cycle in which both utilization reads
fail still issues hardware writes (here the passive even-split writes),
instead of skipping allocation and writes. -/
theorem c5_counterexample :
    none ∈ ([none, none] : List (Option Nat)) ∧
      (runCycle 20 10 400000 50000 [300000, 500000] [none, none]
        (fun _ => false) (fun _ => none)).2 ≠ [] := by decide

theorem setTdp_single_fail (minTdp m tgt : Nat) (fails : Nat → Bool)
    (last : Nat → Option Nat) (hf : fails 0 = true)
    (hl : last 0 ≠ some (clampLimit minTdp m tgt)) :
    setTdpLimits minTdp [m] fails last [(0, tgt)] =
      (last, [(0, clampLimit minTdp m tgt)]) := by
  have hr : List.range 1 = [0] := by decide
  unfold setTdpLimits setTdpStep
  simp only [List.length_singleton]
  rw [hr]
  simp [List.lookup, hf, hl]

/-- Claim C7 (amended): when `setLimit` fails with a not-supported error the
device is not marked to be skipped: `last_tdp_limits_mw` keeps its old value
for that device, so an identical later call attempts the very same write to
that device again. -/
theorem c7_not_supported_retried (minTdp m tgt : Nat) (fails : Nat → Bool)
    (last : Nat → Option Nat) (hf : fails 0 = true)
    (hl : last 0 ≠ some (clampLimit minTdp m tgt)) :
    (setTdpLimits minTdp [m] fails last [(0, tgt)]).1 0 = last 0 ∧
      (setTdpLimits minTdp [m] fails last [(0, tgt)]).2 =
        [(0, clampLimit minTdp m tgt)] ∧
      (setTdpLimits minTdp [m] fails
          (setTdpLimits minTdp [m] fails last [(0, tgt)]).1 [(0, tgt)]).2 =
        [(0, clampLimit minTdp m tgt)] := by
  rw [setTdp_single_fail minTdp m tgt fails last hf hl]
  exact ⟨rfl, rfl, by rw [setTdp_single_fail minTdp m tgt fails last hf hl]⟩

/-- Witness for C7: with a 300 W device whose writes fail as not-supported, a
200 W target is written (and re-written on the second call) as 200 W. -/
theorem c7_not_supported_retried_witness :
    (setTdpLimits 50000 [300000] (fun _ => true) (fun _ => none) [(0, 200000)]).1 0 = none ∧
      (setTdpLimits 50000 [300000] (fun _ => true) (fun _ => none) [(0, 200000)]).2 =
        [(0, clampLimit 50000 300000 200000)] ∧
      (setTdpLimits 50000 [300000] (fun _ => true)
          (setTdpLimits 50000 [300000] (fun _ => true) (fun _ => none) [(0, 200000)]).1
          [(0, 200000)]).2 =
        [(0, clampLimit 50000 300000 200000)] :=
  c7_not_supported_retried 50000 300000 200000 (fun _ => true) (fun _ => none)
    rfl (by decide)

/-- Counterexample for C7 as stated: after the first call fails with
not-supported on device 0, a second identical call still issues a `setLimit`
write to device 0 — the device is not skipped for the remainder of the run. -/
theorem c7_counterexample :
    (setTdpLimits 50000 [300000] (fun _ => true) (fun _ => none) [(0, 200000)]).2 =
        [(0, 200000)] ∧
      (setTdpLimits 50000 [300000] (fun _ => true)
          (setTdpLimits 50000 [300000] (fun _ => true) (fun _ => none) [(0, 200000)]).1
          [(0, 200000)]).2 =
        [(0, 200000)] := by decide

theorem setTdpFold_writes (minTdp : Nat) (hwMax : List Nat) (fails : Nat → Bool)
    (targets : List (Nat × Nat)) :
    ∀ (L : List Nat) (st : (Nat → Option Nat) × List (Nat × Nat)),
      (∀ p ∈ st.2, ∃ t, p.2 = clampLimit minTdp (hwMax.getD p.1 0) t) →
      ∀ p ∈ (L.foldl (setTdpStep minTdp hwMax fails targets) st).2,
        ∃ t, p.2 = clampLimit minTdp (hwMax.getD p.1 0) t
  | [], _, hst => hst
  | j :: L, st, hst => by
    rw [List.foldl_cons]
    apply setTdpFold_writes minTdp hwMax fails targets L
    unfold setTdpStep
    rcases hlk : targets.lookup j with _ | tj
    · exact hst
    · dsimp only
      by_cases h1 : st.1 j = some (clampLimit minTdp (hwMax.getD j 0) tj)
      · rw [if_pos h1]; exact hst
      · rw [if_neg h1]
        by_cases h2 : fails j
        · rw [if_pos h2]
          intro p hp
          rcases List.mem_append.1 hp with hp | hp
          · exact hst p hp
          · rcases List.mem_singleton.1 hp with rfl
            exact ⟨tj, rfl⟩
        · rw [if_neg h2]
          intro p hp
          rcases List.mem_append.1 hp with hp | hp
          · exact hst p hp
          · rcases List.mem_singleton.1 hp with rfl
            exact ⟨tj, rfl⟩

/-- Claim C4 (amended): every value the applier passes to the device port is
the double clamp `min(max(configMin, target), hwMax_i)`, so whenever
`configMin ≤ hwMax_i` the written value lies in `[configMin, hwMax_i]` —
for every device, every last-applied state and every allocator output,
including out-of-range ones.  (The code reads no per-device `hwMin`, so no
`hwMin` bound is applied.) -/
theorem c4_applier_clamps (minTdp : Nat) (hwMax : List Nat) (fails : Nat → Bool)
    (last : Nat → Option Nat) (targets : List (Nat × Nat)) (i w : Nat)
    (hmem : (i, w) ∈ (setTdpLimits minTdp hwMax fails last targets).2)
    (hle : minTdp ≤ hwMax.getD i 0) :
    minTdp ≤ w ∧ w ≤ hwMax.getD i 0 := by
  have h := setTdpFold_writes minTdp hwMax fails targets
    (List.range hwMax.length) (last, []) (by simp) (i, w) hmem
  obtain ⟨t, ht⟩ := h
  replace ht : w = clampLimit minTdp (hwMax.getD i 0) t := ht
  refine ⟨?_, ?_⟩
  · rw [ht]
    exact le_min (le_max_left _ _) hle
  · rw [ht]
    exact min_le_right _ _

/-- Witness for C4: a deliberately out-of-range target of 999999 mW on a
300 W device is written as exactly 300000 mW, inside the claimed interval. -/
theorem c4_applier_clamps_witness :
    50000 ≤ 300000 ∧ (300000 : Nat) ≤ 300000 :=
  c4_applier_clamps 50000 [300000] (fun _ => false) (fun _ => none)
    [(0, 999999)] 0 300000 (by decide) (by decide)

/-- Counterexample for C4 as stated: for a device with hardware bounds
`hwMin = 200 W`, `hwMax = 300 W` (a legal constraint report, `0 < hwMin ≤
hwMax`) and `configMin = 50 W`, an allocator output of 100 W is passed to
the port as 100 W, which is below `max(configMin, hwMin) = 200 W`: the code
never applies a `hwMin` lower bound. -/
theorem c4_counterexample :
    (0, 100000) ∈ (setTdpLimits 50000 [300000] (fun _ => false) (fun _ => none)
        [(0, 100000)]).2 ∧
      ((0 : Nat) < 200000 ∧ (200000 : Nat) ≤ 300000) ∧
      ¬ (max 50000 200000 ≤ 100000) := by decide

theorem setTdpFold_keep (minTdp : Nat) (hwMax : List Nat) (fails : Nat → Bool)
    (targets : List (Nat × Nat)) (i t : Nat) (ht : targets.lookup i = some t) :
    ∀ (L : List Nat) (st : (Nat → Option Nat) × List (Nat × Nat)),
      st.1 i = some (clampLimit minTdp (hwMax.getD i 0) t) →
      (L.foldl (setTdpStep minTdp hwMax fails targets) st).1 i =
        some (clampLimit minTdp (hwMax.getD i 0) t)
  | [], _, h => h
  | j :: L, st, h => by
    rw [List.foldl_cons]
    apply setTdpFold_keep minTdp hwMax fails targets i t ht L
    unfold setTdpStep
    rcases hlk : targets.lookup j with _ | tj
    · exact h
    · dsimp only
      by_cases h1 : st.1 j = some (clampLimit minTdp (hwMax.getD j 0) tj)
      · rw [if_pos h1]; exact h
      · rw [if_neg h1]
        by_cases h2 : fails j
        · rw [if_pos h2]; exact h
        · rw [if_neg h2]
          show (if i = j then some (clampLimit minTdp (hwMax.getD j 0) tj)
            else st.1 i) = _
          by_cases hij : i = j
          · subst hij
            rw [ht] at hlk
            cases hlk
            exact absurd h h1
          · rw [if_neg hij]; exact h

theorem setTdpFold_records (minTdp : Nat) (hwMax : List Nat) (fails : Nat → Bool)
    (targets : List (Nat × Nat)) (hf : ∀ k, fails k = false) :
    ∀ (L : List Nat) (st : (Nat → Option Nat) × List (Nat × Nat)) (i t : Nat),
      i ∈ L → targets.lookup i = some t →
      (L.foldl (setTdpStep minTdp hwMax fails targets) st).1 i =
        some (clampLimit minTdp (hwMax.getD i 0) t)
  | [], _, i, _, h, _ => absurd h (List.not_mem_nil i)
  | j :: L, st, i, t, hmem, ht => by
    rw [List.foldl_cons]
    rcases List.mem_cons.1 hmem with rfl | hmem2
    · apply setTdpFold_keep minTdp hwMax fails targets i t ht L
      unfold setTdpStep
      simp only [ht]
      by_cases h1 : st.1 i = some (clampLimit minTdp (hwMax.getD i 0) t)
      · rw [if_pos h1]; exact h1
      · rw [if_neg h1, if_neg (by simp [hf i])]
        simp
    · exact setTdpFold_records minTdp hwMax fails targets hf L
        (setTdpStep minTdp hwMax fails targets st j) i t hmem2 ht

theorem setTdpFold_noop (minTdp : Nat) (hwMax : List Nat) (fails : Nat → Bool)
    (targets : List (Nat × Nat)) :
    ∀ (L : List Nat) (st : (Nat → Option Nat) × List (Nat × Nat)),
      (∀ i ∈ L, ∀ t, targets.lookup i = some t →
        st.1 i = some (clampLimit minTdp (hwMax.getD i 0) t)) →
      L.foldl (setTdpStep minTdp hwMax fails targets) st = st
  | [], _, _ => rfl
  | j :: L, st, h => by
    have hstep : setTdpStep minTdp hwMax fails targets st j = st := by
      unfold setTdpStep
      rcases hlk : targets.lookup j with _ | tj
      · rfl
      · dsimp only
        rw [if_pos (h j (List.mem_cons_self j L) tj hlk)]
    rw [List.foldl_cons, hstep]
    exact setTdpFold_noop minTdp hwMax fails targets L st
      (fun i hi => h i (List.mem_cons_of_mem j hi))

/-- Claim C8: when writes succeed, a second `_set_tdp_limits` call with the
same targets issues zero hardware writes: the first call records each
clamped value in `last_tdp_limits_mw`, and the second call finds every
clamped value equal to the recorded one and skips every device. -/
theorem c8_second_call_no_writes (minTdp : Nat) (hwMax : List Nat)
    (fails : Nat → Bool) (last : Nat → Option Nat) (targets : List (Nat × Nat))
    (hf : ∀ k, fails k = false) :
    (setTdpLimits minTdp hwMax fails
      (setTdpLimits minTdp hwMax fails last targets).1 targets).2 = [] := by
  unfold setTdpLimits
  rw [setTdpFold_noop minTdp hwMax fails targets (List.range hwMax.length)
    (((List.range hwMax.length).foldl
        (setTdpStep minTdp hwMax fails targets) (last, [])).1, [])
    (fun i hi t ht => setTdpFold_records minTdp hwMax fails targets hf
      (List.range hwMax.length) (last, []) i t hi ht)]

/-- Witness for C8: two 300 W / 500 W devices, fresh state, targets 200 W
each, no write failures — the second identical call issues no writes. -/
theorem c8_second_call_no_writes_witness :
    (setTdpLimits 50000 [300000, 500000] (fun _ => false)
      (setTdpLimits 50000 [300000, 500000] (fun _ => false) (fun _ => none)
        [(0, 200000), (1, 200000)]).1 [(0, 200000), (1, 200000)]).2 = [] :=
  c8_second_call_no_writes 50000 [300000, 500000] (fun _ => false) (fun _ => none)
    [(0, 200000), (1, 200000)] (fun _ => rfl)

theorem getD_set_self (l : List Nat) (i v : Nat) (h : i < l.length) :
    (l.set i v).getD i 0 = v := by
  rw [List.getD_eq_getElem?_getD, List.getElem?_set_self h]
  rfl

theorem getD_set_ne (l : List Nat) (i j v : Nat) (h : i ≠ j) :
    (l.set i v).getD j 0 = l.getD j 0 := by
  rw [List.getD_eq_getElem?_getD, List.getD_eq_getElem?_getD, List.getElem?_set_ne h]

theorem getD_out_of_range (l : List Nat) (i : Nat) (h : ¬ i < l.length) :
    l.getD i 0 = 0 := by
  rw [List.getD_eq_getElem?_getD, List.getElem?_eq_none (Nat.le_of_not_lt h)]
  rfl

theorem sum_set_add (l : List Nat) :
    ∀ (i v : Nat), i < l.length → (l.set i v).sum + l.getD i 0 = l.sum + v := by
  induction l with
  | nil => intro i v h; simp at h
  | cons a t ih =>
    intro i v h
    cases i with
    | zero => simp [List.set]; omega
    | succ k =>
      have hk : k < t.length := by simpa using h
      have := ih k v hk
      simp only [List.set, List.sum_cons, List.getD_cons_succ]
      omega

theorem sum_le_length_mul (l : List Nat) (c : Nat) (h : ∀ x ∈ l, x ≤ c) :
    l.sum ≤ l.length * c := by
  induction l with
  | nil => simp
  | cons a t ih =>
    have ha := h a (List.mem_cons_self a t)
    have ht := ih (fun x hx => h x (List.mem_cons_of_mem a hx))
    simp only [List.sum_cons, List.length_cons, Nat.succ_mul]
    omega

theorem reduceFold_length (minTdp : Nat) :
    ∀ (L : List Nat) (st : List Nat × Nat),
      (L.foldl (reduceStep minTdp) st).1.length = st.1.length
  | [], _ => rfl
  | i :: L, st => by
    rw [List.foldl_cons, reduceFold_length minTdp L]
    unfold reduceStep
    by_cases h0 : st.2 = 0
    · rw [if_pos h0]
    · rw [if_neg h0]
      dsimp only
      by_cases hr : 0 < min st.2 (st.1.getD i 0 - minTdp)
      · rw [if_pos hr]; exact List.length_set st.1 i _
      · rw [if_neg hr]

theorem reduceFold_floor (minTdp : Nat) :
    ∀ (L : List Nat) (st : List Nat × Nat),
      (∀ x ∈ st.1, minTdp ≤ x) →
      ∀ x ∈ (L.foldl (reduceStep minTdp) st).1, minTdp ≤ x
  | [], _, h => h
  | i :: L, st, h => by
    rw [List.foldl_cons]
    apply reduceFold_floor minTdp L
    unfold reduceStep
    by_cases h0 : st.2 = 0
    · rw [if_pos h0]; exact h
    · rw [if_neg h0]
      dsimp only
      by_cases hr : 0 < min st.2 (st.1.getD i 0 - minTdp)
      · rw [if_pos hr]
        intro x hx
        rcases List.mem_or_eq_of_mem_set hx with hx | rfl
        · exact h x hx
        · omega
      · rw [if_neg hr]; exact h

theorem reduceFold_sum (minTdp : Nat) :
    ∀ (L : List Nat) (st : List Nat × Nat),
      (L.foldl (reduceStep minTdp) st).1.sum + st.2 =
        st.1.sum + (L.foldl (reduceStep minTdp) st).2
  | [], _ => rfl
  | i :: L, st => by
    rw [List.foldl_cons]
    have ih := reduceFold_sum minTdp L (reduceStep minTdp st i)
    have hstep : (reduceStep minTdp st i).1.sum + st.2 =
        st.1.sum + (reduceStep minTdp st i).2 := by
      unfold reduceStep
      by_cases h0 : st.2 = 0
      · rw [if_pos h0]
      · rw [if_neg h0]
        dsimp only
        by_cases hr : 0 < min st.2 (st.1.getD i 0 - minTdp)
        · rw [if_pos hr]
          have hlt : i < st.1.length := by
            by_contra hge
            rw [getD_out_of_range st.1 i hge] at hr
            omega
          have hset := sum_set_add st.1 i (st.1.getD i 0 -
            min st.2 (st.1.getD i 0 - minTdp)) hlt
          dsimp only
          omega
        · rw [if_neg hr]
    omega

theorem reduceFold_zero (minTdp : Nat) :
    ∀ (L : List Nat) (st : List Nat × Nat), st.2 = 0 →
      L.foldl (reduceStep minTdp) st = st
  | [], _, _ => rfl
  | i :: L, st, h0 => by
    rw [List.foldl_cons]
    have hstep : reduceStep minTdp st i = st := by
      unfold reduceStep
      rw [if_pos h0]
    rw [hstep]
    exact reduceFold_zero minTdp L st h0

theorem reduceFold_exc_le (minTdp : Nat) :
    ∀ (L : List Nat) (st : List Nat × Nat),
      (L.foldl (reduceStep minTdp) st).2 ≤ st.2
  | [], _ => Nat.le_refl _
  | i :: L, st => by
    rw [List.foldl_cons]
    have ih := reduceFold_exc_le minTdp L (reduceStep minTdp st i)
    have hstep : (reduceStep minTdp st i).2 ≤ st.2 := by
      unfold reduceStep
      by_cases h0 : st.2 = 0
      · rw [if_pos h0]
      · rw [if_neg h0]
        dsimp only
        by_cases hr : 0 < min st.2 (st.1.getD i 0 - minTdp)
        · rw [if_pos hr]; omega
        · rw [if_neg hr]
    omega

theorem reduceFold_getD_le (minTdp : Nat) :
    ∀ (L : List Nat) (st : List Nat × Nat) (j : Nat),
      (L.foldl (reduceStep minTdp) st).1.getD j 0 ≤ st.1.getD j 0
  | [], _, _ => Nat.le_refl _
  | i :: L, st, j => by
    rw [List.foldl_cons]
    have ih := reduceFold_getD_le minTdp L (reduceStep minTdp st i) j
    have hstep : (reduceStep minTdp st i).1.getD j 0 ≤ st.1.getD j 0 := by
      unfold reduceStep
      by_cases h0 : st.2 = 0
      · rw [if_pos h0]
      · rw [if_neg h0]
        dsimp only
        by_cases hr : 0 < min st.2 (st.1.getD i 0 - minTdp)
        · rw [if_pos hr]
          have hlt : i < st.1.length := by
            by_contra hge
            rw [getD_out_of_range st.1 i hge] at hr
            omega
          by_cases hji : j = i
          · subst hji
            rw [getD_set_self st.1 j _ hlt]
            omega
          · rw [getD_set_ne st.1 i j _ (fun hij => hji hij.symm)]
        · rw [if_neg hr]
    omega

theorem reduceFold_stuck (minTdp : Nat) :
    ∀ (L : List Nat) (st : List Nat × Nat),
      (L.foldl (reduceStep minTdp) st).2 ≠ 0 →
      ∀ i ∈ L, (L.foldl (reduceStep minTdp) st).1.getD i 0 ≤ minTdp
  | [], _, _ => by intro i hi; cases hi
  | j :: L, st, hne => by
    rw [List.foldl_cons] at hne ⊢
    have hst2 : (reduceStep minTdp st j).2 ≠ 0 := by
      have := reduceFold_exc_le minTdp L (reduceStep minTdp st j)
      omega
    intro i hi
    rcases List.mem_cons.1 hi with rfl | hi2
    · have h1 := reduceFold_getD_le minTdp L (reduceStep minTdp st i) i
      have h2 : (reduceStep minTdp st i).1.getD i 0 ≤ minTdp := by
        unfold reduceStep at hst2 ⊢
        by_cases h0 : st.2 = 0
        · rw [if_pos h0] at hst2
          exact absurd h0 hst2
        · rw [if_neg h0] at hst2 ⊢
          dsimp only at hst2 ⊢
          by_cases hr : 0 < min st.2 (st.1.getD i 0 - minTdp)
          · rw [if_pos hr] at hst2 ⊢
            dsimp only at hst2
            have hlt : i < st.1.length := by
              by_contra hge
              rw [getD_out_of_range st.1 i hge] at hr
              omega
            rw [getD_set_self st.1 i _ hlt]
            omega
          · rw [if_neg hr] at hst2 ⊢
            omega
      omega
    · exact reduceFold_stuck minTdp L (reduceStep minTdp st j) hne i hi2

theorem mem_sorted_order (n : Nat) (temp : List Nat) (hlen : n ≤ temp.length)
    (j : Nat) (hj : j < n) :
    j ∈ (sortByValDesc ((List.range n).zip temp)).map Prod.fst := by
  have hperm := (sortByValDesc_perm ((List.range n).zip temp)).map Prod.fst
  rw [hperm.mem_iff, List.map_fst_zip _ _ (by simpa using hlen)]
  exact List.mem_range.2 hj

theorem evenSplit_reduced_bounds (minTdp budget n : Nat) (temp : List Nat)
    (hn : temp.length = n) (hbudget : n * minTdp ≤ budget)
    (hmin : ∀ x ∈ temp, minTdp ≤ x) :
    (if 0 < temp.sum - budget then
      (reduceExcess minTdp temp (temp.sum - budget)
        ((sortByValDesc ((List.range n).zip temp)).map Prod.fst)).1
     else temp).sum ≤ budget ∧
    ∀ x ∈ (if 0 < temp.sum - budget then
      (reduceExcess minTdp temp (temp.sum - budget)
        ((sortByValDesc ((List.range n).zip temp)).map Prod.fst)).1
     else temp), minTdp ≤ x := by
  by_cases hexc : 0 < temp.sum - budget
  · rw [if_pos hexc]
    unfold reduceExcess
    refine ⟨?_, reduceFold_floor minTdp _ _ hmin⟩
    have hsum := reduceFold_sum minTdp
      ((sortByValDesc ((List.range n).zip temp)).map Prod.fst)
      (temp, temp.sum - budget)
    dsimp only at hsum
    by_cases hstuck :
        (((sortByValDesc ((List.range n).zip temp)).map Prod.fst).foldl
          (reduceStep minTdp) (temp, temp.sum - budget)).2 = 0
    · omega
    · have hcap := reduceFold_stuck minTdp
        ((sortByValDesc ((List.range n).zip temp)).map Prod.fst)
        (temp, temp.sum - budget) hstuck
      have hlen := reduceFold_length minTdp
        ((sortByValDesc ((List.range n).zip temp)).map Prod.fst)
        (temp, temp.sum - budget)
      dsimp only at hlen
      have hall : ∀ x ∈ (((sortByValDesc ((List.range n).zip temp)).map Prod.fst).foldl
          (reduceStep minTdp) (temp, temp.sum - budget)).1, x ≤ minTdp := by
        intro x hx
        obtain ⟨k, hk, hkx⟩ := List.mem_iff_getElem.1 hx
        have hklen : k < n := by
          rw [hlen, hn] at hk
          exact hk
        have hmemk := mem_sorted_order n temp (by omega) k hklen
        have hcapk := hcap k hmemk
        rw [List.getD_eq_getElem _ 0 hk, hkx] at hcapk
        exact hcapk
      have hle := sum_le_length_mul _ minTdp hall
      rw [hlen, hn] at hle
      omega
  · rw [if_neg hexc]
    exact ⟨by omega, hmin⟩

/-- Claim C2 (amended): for every device set with `Σ hwMax > 0`,
`totalBudget ≥ n·configMin`, and `configMin ≤ hwMax i` for every device, the
passive (even-split) strategy returns an allocation whose total is at most
the budget and in which every per-device target is at least `configMin`. -/
theorem c2_capacity_bounds (budget minTdp : Nat) (hwMax : List Nat)
    (hpos : 0 < hwMax.sum) (hbudget : hwMax.length * minTdp ≤ budget)
    (hmin : ∀ m ∈ hwMax, minTdp ≤ m) :
    (passiveAlloc budget minTdp hwMax).sum ≤ budget ∧
      ∀ x ∈ passiveAlloc budget minTdp hwMax, minTdp ≤ x := by
  have htemp_min : ∀ x ∈ hwMax.map
      (fun m => min (max minTdp (budget / hwMax.length)) m), minTdp ≤ x := by
    intro x hx
    obtain ⟨m, hm, rfl⟩ := List.mem_map.1 hx
    exact le_min (le_max_left _ _) (hmin m hm)
  simp only [passiveAlloc, foldl_append_sum, List.nil_append, Nat.zero_add]
  exact evenSplit_reduced_bounds minTdp budget hwMax.length
    (hwMax.map (fun m => min (max minTdp (budget / hwMax.length)) m))
    (List.length_map hwMax _) hbudget htemp_min

/-- Witness for C2: the 300 W / 500 W fleet with budget 400 W and minimum
50 W gets total exactly 400 W with first target 200 W ≥ 50 W. -/
theorem c2_capacity_bounds_witness :
    (passiveAlloc 400000 50000 [300000, 500000]).sum ≤ 400000 ∧
      50000 ≤ (passiveAlloc 400000 50000 [300000, 500000]).getD 0 0 := by
  have h := c2_capacity_bounds 400000 50000 [300000, 500000]
    (by decide) (by decide) (by decide)
  exact ⟨h.1, h.2 _ (by decide)⟩

/-- Counterexample for C2 as stated: a single device whose hardware maximum
(10 W) is below `configMin` (50 W) satisfies the claimed hypotheses
(`Σ hwMax > 0`, budget 50 ≥ 1·50) yet receives a target of 10 W, below
`configMin`. -/
theorem c2_counterexample :
    0 < ([10] : List Nat).sum ∧ ([10] : List Nat).length * 50 ≤ 50 ∧
      ¬ (∀ x ∈ passiveAlloc 50 50 [10], 50 ≤ x) := by decide

theorem grantStep_getD_ne (hwMax : List Nat) (st : List Nat × Nat)
    (p : Nat × Nat) (q : Nat) (h : q ≠ p.1) :
    (grantStep hwMax st p).1.getD q 0 = st.1.getD q 0 := by
  unfold grantStep
  by_cases h0 : st.2 = 0
  · rw [if_pos h0]
  · rw [if_neg h0]
    dsimp only
    by_cases hinc : 0 < min st.2 (hwMax.getD p.1 0 - st.1.getD p.1 0)
    · rw [if_pos hinc]
      exact getD_set_ne st.1 p.1 q _ (Ne.symm h)
    · rw [if_neg hinc]

theorem grantStep_length (hwMax : List Nat) (st : List Nat × Nat) (p : Nat × Nat) :
    (grantStep hwMax st p).1.length = st.1.length := by
  unfold grantStep
  by_cases h0 : st.2 = 0
  · rw [if_pos h0]
  · rw [if_neg h0]
    dsimp only
    by_cases hinc : 0 < min st.2 (hwMax.getD p.1 0 - st.1.getD p.1 0)
    · rw [if_pos hinc]
      exact List.length_set st.1 p.1 _
    · rw [if_neg hinc]

theorem grantFold_zero (hwMax : List Nat) :
    ∀ (A : List (Nat × Nat)) (st : List Nat × Nat), st.2 = 0 →
      A.foldl (grantStep hwMax) st = st
  | [], _, _ => rfl
  | p :: A, st, h0 => by
    rw [List.foldl_cons]
    have hstep : grantStep hwMax st p = st := by
      unfold grantStep
      rw [if_pos h0]
    rw [hstep]
    exact grantFold_zero hwMax A st h0

theorem grantFold_getD_ne (hwMax : List Nat) :
    ∀ (A : List (Nat × Nat)) (st : List Nat × Nat) (q : Nat),
      q ∉ A.map Prod.fst →
      (A.foldl (grantStep hwMax) st).1.getD q 0 = st.1.getD q 0
  | [], _, _, _ => rfl
  | p :: A, st, q, hq => by
    rw [List.map_cons] at hq
    have hq1 : q ≠ p.1 := fun he => hq (he ▸ List.mem_cons_self _ _)
    have hq2 : q ∉ A.map Prod.fst := fun he => hq (List.mem_cons_of_mem _ he)
    rw [List.foldl_cons, grantFold_getD_ne hwMax A _ q hq2,
      grantStep_getD_ne hwMax st p q hq1]

theorem grantFold_fills_higher (hwMax : List Nat) :
    ∀ (A : List (Nat × Nat)) (st : List Nat × Nat),
      A.Pairwise (fun x y => y.2 ≤ x.2) →
      (A.map Prod.fst).Nodup →
      (∀ p ∈ A, p.1 < st.1.length) →
      (∀ p ∈ A, st.1.getD p.1 0 ≤ hwMax.getD p.1 0) →
      ∀ j uj i ui, (j, uj) ∈ A → (i, ui) ∈ A → uj < ui →
        (A.foldl (grantStep hwMax) st).1.getD j 0 ≠ st.1.getD j 0 →
        (A.foldl (grantStep hwMax) st).1.getD i 0 = hwMax.getD i 0
  | [], _, _, _, _, _ => by intro j uj i ui hj; cases hj
  | a :: A, st, hpw, hnd, hlen, hbnd => by
    intro j uj i ui hj hi hui hch
    rw [List.foldl_cons] at hch ⊢
    rcases List.pairwise_cons.1 hpw with ⟨hhead, htail⟩
    rw [List.map_cons] at hnd
    rcases List.nodup_cons.1 hnd with ⟨hnd1, hnd2⟩
    rcases List.mem_cons.1 hj with hj0 | hjA
    · rcases List.mem_cons.1 hi with hi0 | hiA
      · have e1 : uj = a.2 := congrArg Prod.snd hj0
        have e2 : ui = a.2 := congrArg Prod.snd hi0
        omega
      · have h1 := hhead (i, ui) hiA
        have h2 : uj = a.2 := congrArg Prod.snd hj0
        dsimp only at h1
        omega
    · have hja : j ≠ a.1 := by
        intro he
        exact hnd1 (he ▸ List.mem_map_of_mem Prod.fst hjA)
      have hst' : (grantStep hwMax st a).1.getD j 0 = st.1.getD j 0 :=
        grantStep_getD_ne hwMax st a j hja
      have hch2 : (A.foldl (grantStep hwMax) (grantStep hwMax st a)).1.getD j 0 ≠
          (grantStep hwMax st a).1.getD j 0 := by
        rw [hst']
        exact hch
      rcases List.mem_cons.1 hi with hi0 | hiA
      · have hrem : (grantStep hwMax st a).2 ≠ 0 := by
          intro h0
          rw [grantFold_zero hwMax A _ h0] at hch2
          exact hch2 rfl
        have hset : (grantStep hwMax st a).1.getD a.1 0 = hwMax.getD a.1 0 := by
          have hbnda := hbnd a (List.mem_cons_self a A)
          unfold grantStep at hrem ⊢
          by_cases h0 : st.2 = 0
          · rw [if_pos h0] at hrem
            exact absurd h0 hrem
          · rw [if_neg h0] at hrem ⊢
            dsimp only at hrem ⊢
            by_cases hinc : 0 < min st.2 (hwMax.getD a.1 0 - st.1.getD a.1 0)
            · rw [if_pos hinc] at hrem ⊢
              dsimp only at hrem
              have hlta : a.1 < st.1.length := hlen a (List.mem_cons_self a A)
              rw [getD_set_self st.1 a.1 _ hlta]
              omega
            · rw [if_neg hinc] at hrem ⊢
              omega
        have hia : i = a.1 := congrArg Prod.fst hi0
        rw [hia, grantFold_getD_ne hwMax A _ a.1 hnd1, hset]
      · have hlen2 : ∀ p ∈ A, p.1 < (grantStep hwMax st a).1.length := by
          intro p hp
          rw [grantStep_length]
          exact hlen p (List.mem_cons_of_mem a hp)
        have hbnd2 : ∀ p ∈ A,
            (grantStep hwMax st a).1.getD p.1 0 ≤ hwMax.getD p.1 0 := by
          intro p hp
          have hpa : p.1 ≠ a.1 := by
            intro he
            exact hnd1 (he ▸ List.mem_map_of_mem Prod.fst hp)
          rw [grantStep_getD_ne hwMax st a p.1 hpa]
          exact hbnd p (List.mem_cons_of_mem a hp)
        exact grantFold_fills_higher hwMax A (grantStep hwMax st a) htail hnd2
          hlen2 hbnd2 j uj i ui hjA hiA hui hch2

/-- Claim C10: in an active cycle, an active device j is raised above its
floor `min(configMin, hwMax j)` only if every active device with strictly
higher utilization ends the cycle at its own `hwMax` — the surplus is
granted greedily in strictly decreasing utilization order. -/
theorem c10_greedy_priority (al pl budget minTdp : Nat)
    (hwMax utils : List Nat) (hlen : utils.length = hwMax.length)
    (i j : Nat) (hi : i < utils.length) (hj : j < utils.length)
    (hai : al ≤ utils.getD i 0) (haj : al ≤ utils.getD j 0)
    (hij : utils.getD j 0 < utils.getD i 0)
    (hraised : (cycleAlloc al pl budget minTdp hwMax utils).getD j 0 ≠
        min minTdp (hwMax.getD j 0)) :
    (cycleAlloc al pl budget minTdp hwMax utils).getD i 0 = hwMax.getD i 0 := by
  have hap : allPassive al pl utils = false := by
    unfold allPassive
    rw [List.all_eq_false]
    refine ⟨utils.getD i 0, ?_, ?_⟩
    · rw [List.getD_eq_getElem _ _ hi]
      exact List.getElem_mem hi
    · simp only [Bool.and_eq_true, decide_eq_true_eq, not_and]
      intro h
      omega
  have hmemzip : ∀ k, k < utils.length →
      (k, utils.getD k 0) ∈ (List.range utils.length).zip utils := by
    intro k hk
    refine List.mem_iff_getElem.2 ⟨k, by simpa using hk, ?_⟩
    rw [List.getElem_zip, List.getElem_range, List.getD_eq_getElem _ _ hk]
  have hmemA : ∀ k, k < utils.length → al ≤ utils.getD k 0 →
      (k, utils.getD k 0) ∈ sortByValDesc (classifyActive al utils) := by
    intro k hk hak
    refine (sortByValDesc_perm _).mem_iff.2 ?_
    unfold classifyActive
    rw [List.mem_filter]
    exact ⟨hmemzip k hk, by simpa using hak⟩
  have hndA : ((sortByValDesc (classifyActive al utils)).map Prod.fst).Nodup := by
    have h1 : ((classifyActive al utils).map Prod.fst).Nodup := by
      unfold classifyActive
      refine List.Sublist.nodup ((List.filter_sublist _).map Prod.fst) ?_
      rw [List.map_fst_zip _ _ (by simp)]
      exact List.nodup_range _
    exact ((sortByValDesc_perm (classifyActive al utils)).map Prod.fst).nodup_iff.2 h1
  have hfstlt : ∀ p ∈ sortByValDesc (classifyActive al utils), p.1 < hwMax.length := by
    intro p hp
    have hp2 : p ∈ classifyActive al utils := (sortByValDesc_perm _).mem_iff.1 hp
    unfold classifyActive at hp2
    have hp3 := (List.mem_filter.1 hp2).1
    have hp4 := (List.of_mem_zip (a := p.1) (b := p.2) hp3).1
    rw [← hlen]
    exact List.mem_range.1 hp4
  have hfloorD : ∀ k, k < hwMax.length →
      (activeFloor minTdp hwMax).getD k 0 = min minTdp (hwMax.getD k 0) := by
    intro k hk
    unfold activeFloor
    rw [List.getD_eq_getElem _ _ (by simpa using hk), List.getElem_map,
      List.getD_eq_getElem _ _ hk]
  have hcyc : cycleAlloc al pl budget minTdp hwMax utils =
      ((sortByValDesc (classifyActive al utils)).foldl (grantStep hwMax)
        (activeFloor minTdp hwMax,
          budget - (activeFloor minTdp hwMax).sum)).1 := by
    unfold cycleAlloc
    rw [hap, if_neg Bool.false_ne_true]
    rfl
  rw [hcyc] at hraised ⊢
  have hjlt : j < hwMax.length := hlen ▸ hj
  have hilt : i < hwMax.length := hlen ▸ hi
  have hch : ((sortByValDesc (classifyActive al utils)).foldl (grantStep hwMax)
      (activeFloor minTdp hwMax,
        budget - (activeFloor minTdp hwMax).sum)).1.getD j 0 ≠
      (activeFloor minTdp hwMax, budget - (activeFloor minTdp hwMax).sum).1.getD j 0 := by
    dsimp only
    rw [hfloorD j hjlt]
    exact hraised
  have hres := grantFold_fills_higher hwMax (sortByValDesc (classifyActive al utils))
    (activeFloor minTdp hwMax, budget - (activeFloor minTdp hwMax).sum)
    (sortByValDesc_pairwise _) hndA
    (by
      intro p hp
      dsimp only
      unfold activeFloor
      rw [List.length_map]
      exact hfstlt p hp)
    (by
      intro p hp
      dsimp only
      rw [hfloorD p.1 (hfstlt p hp)]
      exact min_le_right _ _)
    j (utils.getD j 0) i (utils.getD i 0)
    (hmemA j hj haj) (hmemA i hi hai) hij hch
  exact hres

/-- Witness for C10: in the all-active scenario (utilizations 30 and 25,
maxima 500 W each, budget 800 W, minimum 100 W), device 1 sits at 300 W,
above its 100 W floor, and indeed device 0 (higher utilization) ends at its
full 500 W maximum. -/
theorem c10_greedy_priority_witness :
    (cycleAlloc 20 10 800000 100000 [500000, 500000] [30, 25]).getD 0 0 =
      [500000, 500000].getD 0 0 :=
  c10_greedy_priority 20 10 800000 100000 [500000, 500000] [30, 25] rfl 0 1
    (by decide) (by decide) (by decide) (by decide) (by decide) (by decide)

end GpuTdpBalancer
